import Mathlib

/-!
# Verification of the PresiPlot core (Elements.py, Animations.py)

Shallow embedding of the PresiPlot adapter/animation layer in Lean 4.
Python floats are modelled as rationals (`ℚ`); matplotlib artists are
modelled as records holding exactly the state the code reads and writes;
`warnings.warn` is modelled as a `Bool` flag returned alongside the new
state; exceptions are modelled with `Except String`.
-/

namespace PresiPlot

/-- An RGBA colour, as produced by `matplotlib.colors.to_rgba`. -/
structure RGBA where
  r : ℚ
  g : ℚ
  b : ℚ
  a : ℚ
deriving DecidableEq, Repr

/-- `to_rgba(c, alpha)` with an RGBA input: keeps the RGB channels and
replaces the alpha channel. -/
def to_rgba (c : RGBA) (alpha : ℚ) : RGBA :=
  { c with a := alpha }

/-- `Element.set_alpha` (Elements.py lines 19-25), the base-class setter
inherited by `BarElement`.  Returns the alpha value stored on the artist
together with a flag recording whether `warnings.warn` was called. -/
def Element.set_alpha (alpha : ℚ) : ℚ × Bool :=
  if 0 ≤ alpha ∧ alpha ≤ 1 then (alpha, false)
  else (max 0 (min 1 alpha), true)

/-- State of a `DummyElement` / `DummyElement1D` (Elements.py lines 74-123):
a pure in-memory holder with no artist.  `_data` is the two-coordinate
buffer used by `DummyElement1D.set_full_data`. -/
structure DummyElement where
  horizontal : Bool
  _alpha : Option ℚ
  _data : Option (ℚ × ℚ)
  _scale : Option ℚ
  _ref_sizes : Option (ℚ × ℚ)
deriving DecidableEq, Repr

/-- `DummyElement.__init__`: every stored attribute starts out as `None`. -/
def DummyElement.init (horizontal : Bool) : DummyElement :=
  { horizontal := horizontal, _alpha := none, _data := none,
    _scale := none, _ref_sizes := none }

/-- `DummyElement.set_alpha` (Elements.py lines 85-86): `self._alpha = alpha`.
It overrides the clamping base-class method, stores the raw value and never
warns, hence the constant `false` flag. -/
def DummyElement.set_alpha (d : DummyElement) (alpha : ℚ) : DummyElement × Bool :=
  ({ d with _alpha := some alpha }, false)

/-- `DummyElement.set_scale` (Elements.py lines 97-98). -/
def DummyElement.set_scale (d : DummyElement) (scale : ℚ) : DummyElement :=
  { d with _scale := some scale }

/-- `DummyElement.set_reference_sizes` (Elements.py lines 100-101). -/
def DummyElement.set_reference_sizes (d : DummyElement) (s1 s2 : ℚ) : DummyElement :=
  { d with _ref_sizes := some (s1, s2) }

/-- `DummyElement1D.set_full_data` (Elements.py lines 111-112). -/
def DummyElement.set_full_data (d : DummyElement) (data : ℚ × ℚ) : DummyElement :=
  { d with _data := some data }

/-- State of a matplotlib `Rectangle` patch, holding the fields read and
written by `BarElement`: position `get_xy`/`set_xy`, `get_width`/`set_width`,
`get_height`/`set_height` and the artist alpha. -/
structure Rectangle where
  x : ℚ
  y : ℚ
  w : ℚ
  h : ℚ
  alpha : Option ℚ
deriving DecidableEq, Repr

/-- State of a `BarElement` (Elements.py lines 44-71): the wrapped artist
plus the reference width/height/centroid captured at construction and the
last applied scale. -/
structure BarElement where
  artist : Rectangle
  horizontal : Bool
  _ref_w : ℚ
  _ref_h : ℚ
  _centroid : ℚ × ℚ
  _scale : ℚ
deriving DecidableEq, Repr

/-- `BarElement.__init__` (Elements.py lines 45-50):
`_ref_w = bar.get_width()`, `_ref_h = bar.get_height()`,
`_centroid = bar.get_xy() + 0.5 * [_ref_w, _ref_h]`, `_scale = 1`. -/
def BarElement.make (bar : Rectangle) (horizontal : Bool) : BarElement :=
  { artist := bar, horizontal := horizontal, _ref_w := bar.w, _ref_h := bar.h,
    _centroid := (bar.x + (1/2) * bar.w, bar.y + (1/2) * bar.h), _scale := 1 }

/-- `BarElement.get_data` (Elements.py lines 52-53). -/
def BarElement.get_data (b : BarElement) : ℚ :=
  if b.horizontal then b.artist.w else b.artist.h

/-- `BarElement.set_data` (Elements.py lines 55-59): writes the extruded
dimension straight to the artist. -/
def BarElement.set_data (b : BarElement) (data : ℚ) : BarElement :=
  if b.horizontal then { b with artist := { b.artist with w := data } }
  else { b with artist := { b.artist with h := data } }

/-- `BarElement.set_scale` (Elements.py lines 61-68): recomputes the corner
and size of the artist from the fixed centroid and reference dimensions
scaled by `scale`, then records the scale. -/
def BarElement.set_scale (b : BarElement) (scale : ℚ) : BarElement :=
  { b with
    artist := { b.artist with
      x := b._centroid.1 - scale * b._ref_w / 2,
      y := b._centroid.2 - scale * b._ref_h / 2,
      w := scale * b._ref_w,
      h := scale * b._ref_h },
    _scale := scale }

/-- `BarElement` inherits `Element.set_alpha`, which writes the (possibly
clamped) alpha to the artist and may warn. -/
def BarElement.set_alpha (b : BarElement) (alpha : ℚ) : BarElement × Bool :=
  let r := Element.set_alpha alpha
  ({ b with artist := { b.artist with alpha := some r.1 } }, r.2)

/-- One mutating call on a `BarElement`, used to quantify over arbitrary
finite call sequences. -/
inductive BarOp where
  | setData (v : ℚ)
  | setScale (s : ℚ)
  | setAlpha (a : ℚ)

/-- Dispatch of a `BarOp` to the corresponding `BarElement` method. -/
def BarElement.applyOp (b : BarElement) : BarOp → BarElement
  | .setData v => b.set_data v
  | .setScale s => b.set_scale s
  | .setAlpha a => (b.set_alpha a).1

/-! ## Animations.py: Stagger -/

/-- State of an `itertools.count(start, step)` iterator: the value the next
call will yield, and the fixed step. -/
structure CountIter where
  current : ℚ
  step : ℚ
deriving DecidableEq, Repr

/-- Advancing `itertools.count`: yields `current`, then moves to
`current + step`. -/
def CountIter.next (c : CountIter) : ℚ × CountIter :=
  (c.current, ⟨c.current + c.step, c.step⟩)

/-- Consuming `n` successive values from a count iterator. -/
def CountIter.takeN : CountIter → Nat → List ℚ × CountIter
  | c, 0 => ([], c)
  | c, n + 1 =>
      let r := c.next
      let r2 := r.2.takeN n
      (r.1 :: r2.1, r2.2)

/-- State of a `Stagger` (Animations.py lines 9-14): it stores a single
`itertools.count(start_time, interval)` iterator created in `__init__`. -/
structure Stagger where
  _times : CountIter
deriving DecidableEq, Repr

/-- `Stagger.__init__` (Animations.py lines 10-11). -/
def Stagger.make (start_time interval : ℚ) : Stagger :=
  ⟨⟨start_time, interval⟩⟩

/-- `Stagger.__iter__` (Animations.py lines 13-14) returns the stored
`itertools.count` object itself — not a fresh iterator — so consuming
values through any iteration advances the one shared iterator.  `iterTake`
models obtaining the iterator via `__iter__` and consuming `n` values from
it: it returns the values seen together with the Stagger whose shared
iterator has advanced. -/
def Stagger.iterTake (s : Stagger) (n : Nat) : List ℚ × Stagger :=
  let r := s._times.takeN n
  (r.1, ⟨r.2⟩)

/-- Argument of a batched `ElementSeries` attribute setter: the Python code
distinguishes a bare `int`/`float` scalar from a sequence by a runtime type
test (Elements.py line 145). -/
inductive AttrValue where
  | scalar (v : ℚ)
  | seq (vs : List ℚ)

/-- `ElementSeries._set_attribute` (Elements.py lines 144-150): a scalar is
broadcast to a list of the series length; a sequence of any other length
raises `ValueError` before the write loop runs, so on error no element is
modified; otherwise `set_<attribute>` is applied element-wise.  The concrete
per-element setter is a parameter so that one embedding covers the alpha,
data and scale attributes of every element kind. -/
def ElementSeries.setAttribute {E : Type} (setter : E → ℚ → E)
    (elements : List E) : AttrValue → Except String (List E)
  | .scalar v => .ok (elements.map (fun e => setter e v))
  | .seq vs =>
      if vs.length ≠ elements.length then
        .error "Length of input values does not match length of ElementSeries."
      else
        .ok (List.zipWith setter elements vs)

/-- State of a matplotlib `PathCollection` (scatter artifact): the bulk
state the scatter adapter reads and writes via `get_offsets`/`set_offsets`,
`get_sizes`/`set_sizes`, `get_alpha`, `get_facecolor`/`set_color`.
`alpha = none` models an unset artist alpha; a set alpha is modelled as one
value per point, the only indexable shape `ScatterSeries.__init__` supports
(it evaluates `alphas[i]`).  `set_color` also overwrites edge colors, which
the adapter never reads back; only face colors are modelled. -/
structure PathCollection where
  offsets : List (ℚ × ℚ)
  sizes : List ℚ
  alpha : Option (List ℚ)
  facecolors : List RGBA
deriving DecidableEq, Repr

/-- Runtime state of a `ScatterSeries`.  Note Elements.py line 180 passes
`horizontal=False` to the base constructor regardless of the parameter,
while the elements are built with the actual parameter. -/
structure ScatterSeriesObj where
  _artist_collection : PathCollection
  horizontal : Bool
  elements : List DummyElement
deriving Repr

/-- `ScatterSeries.__init__` (Elements.py lines 179-193): one
`DummyElement1D` per offset, seeded with the point's coordinates, its size
as scale and its alpha (a singleton sizes array is broadcast with
`np.repeat`; a `None` alpha becomes 1 for every point).  The Python
indexing `data[i]` / `sizes[i]` / `alphas[i]` raises `IndexError` out of
bounds; it is modelled with `getD`, and the theorems below are stated in
the in-bounds regime only. -/
def ScatterSeries.init (pc : PathCollection) (horizontal : Bool) :
    ScatterSeriesObj :=
  let data := pc.offsets
  let sizes := if pc.sizes.length = 1 then
      List.replicate data.length (pc.sizes.headD 0)
    else pc.sizes
  let alphas := match pc.alpha with
    | none => List.replicate data.length 1
    | some as0 => as0
  let elements := (List.range data.length).map (fun i =>
    ((((DummyElement.init horizontal).set_full_data
        (data.getD i (0, 0))).set_scale
        (sizes.getD i 0)).set_alpha (alphas.getD i 0)).1)
  { _artist_collection := pc, horizontal := false, elements := elements }

/-- `ScatterSeries.update` (Elements.py lines 195-202): rebuilds offsets
from the elements' buffered coordinate pairs, sizes from their scales, and
replaces each face color's alpha channel by the element's clamped alpha
(broadcasting a single stored face color over all elements). -/
def ScatterSeries.update (s : ScatterSeriesObj) : PathCollection :=
  let pc1 := { s._artist_collection with
    offsets := s.elements.map (fun (el : DummyElement) => el._data.getD (0, 0)) }
  let pc2 := { pc1 with
    sizes := s.elements.map (fun (el : DummyElement) => el._scale.getD 0) }
  let colors := pc2.facecolors
  let colors2 := if colors.length = 1 then
      s.elements.map (fun _ => colors.headD ⟨0, 0, 0, 0⟩)
    else colors
  let new_colors := (s.elements.zip colors2).map
    (fun p => to_rgba p.2 (max 0 (min 1 (p.1._alpha.getD 0))))
  { pc2 with facecolors := new_colors }

/-- The C3 round trip for a scatter artifact: construct the series,
perform no per-element mutation, flush. -/
def roundTripScatter (pc : PathCollection) (horizontal : Bool) :
    PathCollection :=
  ScatterSeries.update (ScatterSeries.init pc horizontal)

/-- State of a matplotlib `Line2D` (polyline artifact): the bulk state the
line adapter reads and writes via `get_data`/`set_data`, `get_alpha`/
`set_alpha`, `get_markersize`/`set_markersize`,
`get_linewidth`/`set_linewidth`. -/
structure Line2D where
  xdata : List ℚ
  ydata : List ℚ
  alpha : Option ℚ
  markersize : ℚ
  linewidth : ℚ
deriving DecidableEq, Repr

/-- Runtime state of a `Line2DSeries`. -/
structure Line2DSeriesObj where
  _artist_collection : Line2D
  horizontal : Bool
  elements : List DummyElement
deriving Repr

/-- `Line2DSeries.__init__` (Elements.py lines 206-220): one
`DummyElement1D` per vertex of `zip(*line_2d.get_data())`, seeded with the
vertex pair, the line's shared alpha (`None` becomes 1), scale 1, and the
line's marker size / line width as the reference size pair. -/
def Line2DSeries.init (l : Line2D) (horizontal : Bool) : Line2DSeriesObj :=
  let data := l.xdata.zip l.ydata
  let alpha := match l.alpha with
    | none => 1
    | some a => a
  let elements := data.map (fun d =>
    (((((DummyElement.init horizontal).set_full_data d).set_alpha
        alpha).1).set_scale 1).set_reference_sizes l.markersize l.linewidth)
  { _artist_collection := l, horizontal := horizontal, elements := elements }

/-- `Line2DSeries.update` (Elements.py lines 222-235): rebuilds the x/y
arrays by transposing the buffered pairs, applies the representative of the
distinct per-element alphas (warning when more than one distinct value
exists — first returned `Bool`), and scales the captured reference marker
size and line width by the representative of the distinct scales (second
`Bool` is that warning).  Python collects the distinct values in a `set`
with unspecified iteration order; the embedding collects them with `dedup`
and takes the head, which is exact whenever all values agree — the only
case a round trip exercises.  `self[0]` on an empty series would raise
`IndexError`; it is modelled with `headD`. -/
def Line2DSeries.update (s : Line2DSeriesObj) : Line2D × Bool × Bool :=
  let full := s.elements.map (fun el => el._data.getD (0, 0))
  let l1 := { s._artist_collection with
    xdata := full.map Prod.fst, ydata := full.map Prod.snd }
  let alphas := (s.elements.map (fun el => el._alpha.getD 0)).dedup
  let warnAlpha := alphas.length != 1
  let l2 := { l1 with alpha := some (alphas.headD 0) }
  let scales := (s.elements.map (fun el => el._scale.getD 0)).dedup
  let warnScale := scales.length != 1
  let scale := scales.headD 0
  let rs := ((s.elements.headD (DummyElement.init false))._ref_sizes).getD (0, 0)
  let l3 := { l2 with markersize := rs.1 * scale, linewidth := rs.2 * scale }
  (l3, warnAlpha, warnScale)

/-- The C3 round trip for a polyline artifact. -/
def roundTripLine (l : Line2D) (horizontal : Bool) : Line2D :=
  (Line2DSeries.update (Line2DSeries.init l horizontal)).1

/-- Runtime state of a `BarSeries` (Elements.py lines 171-175): one
`BarElement` per bar of the container. -/
structure BarSeriesObj where
  _artist_collection : List Rectangle
  horizontal : Bool
  elements : List BarElement
deriving Repr

/-- `BarSeries.__init__` (Elements.py lines 172-175). -/
def BarSeries.init (bars : List Rectangle) (horizontal : Bool) : BarSeriesObj :=
  { _artist_collection := bars, horizontal := horizontal,
    elements := bars.map (fun b => BarElement.make b horizontal) }

/-- `BarSeries` inherits `ElementSeries.update` (Elements.py lines 141-142),
whose body is `pass`: the flush touches nothing. -/
def BarSeries.update (s : BarSeriesObj) : List Rectangle :=
  s._artist_collection

/-- The C3 round trip for a bar-group artifact. -/
def roundTripBar (bars : List Rectangle) (horizontal : Bool) : List Rectangle :=
  BarSeries.update (BarSeries.init bars horizontal)

/-- Runtime state of an `ElementSeries` object.  A Python object carries
exactly the attributes that were assigned to it: the base
`ElementSeries.__init__` (Elements.py lines 127-130) assigns `_elements`,
`horizontal` and `_artist_collection` but never `artists`, while the
concrete subclasses additionally assign `artists`.  Attribute presence is
modelled with `Option`: `artists = none` means that an access
`obj.artists` raises `AttributeError`.  `ε` is the element type and `α`
the artist type. -/
structure ElementSeriesObj (α ε : Type) where
  _elements : List ε
  horizontal : Bool
  _artist_collection : α
  artists : Option (List α)

/-- The base `ElementSeries.__init__` (Elements.py lines 127-130): empty
element list, no `artists` attribute. -/
def ElementSeries.initBase {α ε : Type} (artist_collection : α)
    (horizontal : Bool) : ElementSeriesObj α ε :=
  { _elements := [], horizontal := horizontal,
    _artist_collection := artist_collection, artists := none }

/-- The easer argument of `SeriesAnimation.__init__`:
`type(easer) not in [list, tuple]` broadcasts a single easing function
(Animations.py lines 63-64). -/
inductive EaserArg where
  | single (f : ℚ → ℚ)
  | seq (fs : List (ℚ → ℚ))

/-- Runtime state of a fully constructed `SeriesAnimation` object
(Animations.py lines 55-66): the owned series, the cached
`self._artists` handles and the per-element animation objects. -/
structure SeriesAnimationObj (α ε A : Type) where
  elements : ElementSeriesObj α ε
  _artists : List α
  animations : List A

/-- `SeriesAnimation.__init__` (Animations.py lines 56-66).  It instantiates
the base `ElementSeries` class directly — not via `create_element_series` —
and then reads `self.elements.artists`, which the base class never assigns.
`animation_class` abstracts the per-element animation constructor
`animation_class(element=el, start=st, duration=d, easer=ea, **kwargs)`.
Scalar start times and durations are broadcast over the (empty) element
list; the remaining iterable cases (lists, or a lazily consumed `Stagger`)
are modelled by an explicit value list, which suffices because the
`zip` in the comprehension consumes at most `len(elements)` values. -/
def SeriesAnimation.initObj {α ε A : Type} (artists : α)
    (start_time duration : AttrValue) (easer : EaserArg)
    (animation_class : ε → ℚ → ℚ → (ℚ → ℚ) → A) (horizontal : Bool) :
    Except String (SeriesAnimationObj α ε A) :=
  let elements : ElementSeriesObj α ε := ElementSeries.initBase artists horizontal
  match elements.artists with
  | none => .error "AttributeError: ElementSeries object has no attribute artists"
  | some arts =>
      let duration' := match duration with
        | .scalar v => elements._elements.map (fun _ => v)
        | .seq vs => vs
      let start_time' := match start_time with
        | .scalar v => elements._elements.map (fun _ => v)
        | .seq vs => vs
      let easer' := match easer with
        | .single f => elements._elements.map (fun _ => f)
        | .seq fs => fs
      let animations :=
        (((elements._elements.zip start_time').zip duration').zip easer').map
          (fun x => animation_class x.1.1.1 x.1.1.2 x.1.2 x.2)
      .ok { elements := elements, _artists := arts, animations := animations }

/-- `SeriesAnimation.tick` (Animations.py lines 68-71): calls `anim.tick(t)`
on every animation — each such call mutates only that animation's bound
element, modelled by `tickAnim` — and then returns `self._artists`.  The
body contains no call to `self.elements.update()`, so the owned series and
its artifact are left untouched. -/
def SeriesAnimation.tick {α ε A : Type} (tickAnim : A → ℚ → A)
    (s : SeriesAnimationObj α ε A) (t : ℚ) :
    SeriesAnimationObj α ε A × List α :=
  ({ s with animations := s.animations.map (fun a => tickAnim a t) }, s._artists)

/-! ## Animations.py: Animation / DataAnimation -/

/-- State of an `Animation` (Animations.py lines 17-27) minus the bound
element, which is threaded separately so that one embedding covers every
element kind.  `easer` is the pluggable easing function. -/
structure Animation where
  start_time : ℚ
  duration : ℚ
  end_time : ℚ
  start_value : ℚ
  end_value : ℚ
  easer : ℚ → ℚ

/-- `Animation.__init__` (Animations.py lines 18-27): stores
`end_time = start + duration`.  The Python default easer
(`easing_functions.LinearInOut()`, the identity on progress) is passed
explicitly by callers of this embedding. -/
def Animation.make (start duration start_value end_value : ℚ) (easer : ℚ → ℚ) :
    Animation :=
  { start_time := start, duration := duration, end_time := start + duration,
    start_value := start_value, end_value := end_value, easer := easer }

/-- `Animation._get_value_at_time` (Animations.py lines 32-34):
`alpha = easer((t - start_time)/duration)`;
result `start_value + alpha * (end_value - start_value)`. -/
def Animation.getValueAtTime (a : Animation) (t : ℚ) : ℚ :=
  a.start_value + a.easer ((t - a.start_time) / a.duration) * (a.end_value - a.start_value)

/-- `DataAnimation.tick` (Animations.py lines 44-46): mutates the bound
element via `set_data` only when `start_time < t <= end_time`.  The bound
element's state type `σ` and its `set_data` method are parameters, so the
same embedding covers `BarElement` and `DummyElement1D` targets. -/
def DataAnimation.tick {σ : Type} (set_data : σ → ℚ → σ) (a : Animation)
    (el : σ) (t : ℚ) : σ :=
  if a.start_time < t ∧ t ≤ a.end_time then set_data el (a.getValueAtTime t)
  else el

/-- `DataAnimation.initialize` (Animations.py lines 40-41): the optional
construction-time write of `start_value` through `set_data`. -/
def DataAnimation.initElement {σ : Type} (set_data : σ → ℚ → σ) (a : Animation)
    (el : σ) : σ :=
  set_data el a.start_value

end PresiPlot

namespace PresiPlot

/-- C1: `DataAnimation.tick(t)` never touches the bound element when
`t ≤ start_time` or `t > end_time`; consequently any finite sequence of such
out-of-window ticks (in particular repeated ticks after `end_time`) leaves
the element state exactly as it was. -/
theorem dataAnimation_tick_outside_window_noop {σ : Type}
    (set_data : σ → ℚ → σ) (a : Animation) (el : σ) (ts : List ℚ)
    (h : ∀ t ∈ ts, t ≤ a.start_time ∨ a.end_time < t) :
    ts.foldl (fun e t => DataAnimation.tick set_data a e t) el = el := by
  induction ts generalizing el with
  | nil => rfl
  | cons t ts ih =>
    have ht := h t (List.mem_cons_self t ts)
    have hstep : DataAnimation.tick set_data a el t = el := by
      unfold DataAnimation.tick
      rcases ht with ht | ht
      · rw [if_neg]
        rintro ⟨h1, -⟩
        exact absurd (lt_of_le_of_lt ht h1) (lt_irrefl t)
      · rw [if_neg]
        rintro ⟨-, h2⟩
        exact absurd (lt_of_le_of_lt h2 ht) (lt_irrefl t)
    rw [List.foldl_cons, hstep]
    exact ih el (fun t ht' => h t (List.mem_cons_of_mem _ ht'))

/-- Witness for C1: a concrete animation over the window (0, 10] ticked at
0, 11 and 20 leaves a data value of 7 untouched. -/
theorem dataAnimation_tick_outside_window_noop_witness :
    ([0, 11, 20] : List ℚ).foldl
      (fun e t => DataAnimation.tick (fun _ v => v) (Animation.make 0 10 0 5 id) e t)
      (7 : ℚ) = 7 := by
  refine dataAnimation_tick_outside_window_noop (fun _ v => v)
    (Animation.make 0 10 0 5 id) (7 : ℚ) [0, 11, 20] ?_
  intro t ht
  simp only [List.mem_cons, List.not_mem_nil, or_false] at ht
  rcases ht with rfl | rfl | rfl
  · left; norm_num [Animation.make]
  · right; norm_num [Animation.make]
  · right; norm_num [Animation.make]

/-- C7: with a linear easer (eased progress = progress) and nonzero duration,
the interpolated value at `t = start_time + duration * k` for `k ∈ {0, 1}`
is exactly `start_value + k * (end_value - start_value)`. -/
theorem getValueAtTime_linear_boundary (a : Animation)
    (hlin : ∀ x, a.easer x = x) (hd : a.duration ≠ 0) (k : ℚ)
    (hk : k = 0 ∨ k = 1) :
    a.getValueAtTime (a.start_time + a.duration * k)
      = a.start_value + k * (a.end_value - a.start_value) := by
  unfold Animation.getValueAtTime
  rw [hlin]
  rcases hk with rfl | rfl
  · ring_nf
  · have : (a.start_time + a.duration * 1 - a.start_time) / a.duration = 1 := by
      field_simp
    rw [this]

/-- Witness for C7: for the animation with start 2, duration 4, values
10 → 20 and identity easer, the value at `t = 2 + 4*1` is `10 + 1*(20-10)`. -/
theorem getValueAtTime_linear_boundary_witness :
    (Animation.make 2 4 10 20 id).getValueAtTime
        ((Animation.make 2 4 10 20 id).start_time
          + (Animation.make 2 4 10 20 id).duration * 1)
      = (Animation.make 2 4 10 20 id).start_value
          + 1 * ((Animation.make 2 4 10 20 id).end_value
                  - (Animation.make 2 4 10 20 id).start_value) :=
  getValueAtTime_linear_boundary (Animation.make 2 4 10 20 id)
    (fun _ => rfl) (by norm_num [Animation.make]) 1 (Or.inr rfl)

/-- C4 counterexample: `DummyElement.set_alpha` — the setter used by point
and vertex elements — called with the out-of-range alpha `3/2` does NOT
store the clamped value `1` with a warning; it stores `3/2` raw and never
warns, refuting the claim for the point/vertex variants. -/
theorem dummyElement_set_alpha_no_clamp_counterexample :
    ¬ ((((DummyElement.init false).set_alpha (3/2)).1._alpha = some 1)
        ∧ ((DummyElement.init false).set_alpha (3/2)).2 = true) := by
  intro h
  obtain ⟨h1, -⟩ := h
  rw [DummyElement.set_alpha] at h1
  simp only [Option.some.injEq] at h1
  norm_num at h1

/-- C4 amended: the base `Element.set_alpha` (inherited by `BarElement`)
always stores the clamped value `max 0 (min 1 a)` and warns exactly when
`a` is outside `[0, 1]`; `DummyElement.set_alpha` (point and vertex
elements) stores the raw value unclamped and never warns. -/
theorem set_alpha_clamping_amended (a : ℚ) (d : DummyElement) :
    Element.set_alpha a = (max 0 (min 1 a), !decide (0 ≤ a ∧ a ≤ 1))
      ∧ DummyElement.set_alpha d a = ({ d with _alpha := some a }, false) := by
  refine ⟨?_, rfl⟩
  unfold Element.set_alpha
  by_cases h : 0 ≤ a ∧ a ≤ 1
  · obtain ⟨h0, h1⟩ := h
    rw [if_pos ⟨h0, h1⟩, min_eq_right h1, max_eq_right h0]
    simp [h0, h1]
  · rw [if_neg h]
    simp [h]

/-- C5: a batched attribute call whose sequence length differs from the
series length fails with the length-mismatch `ValueError`; since the check
precedes the write loop, no element is modified (the returned `Except` is
an error and carries no updated element list). -/
theorem setAttribute_length_mismatch_error {E : Type} (setter : E → ℚ → E)
    (elements : List E) (vs : List ℚ) (h : vs.length ≠ elements.length) :
    ElementSeries.setAttribute setter elements (.seq vs)
      = .error "Length of input values does not match length of ElementSeries." := by
  simp [ElementSeries.setAttribute, h]

/-- Witness for C5: a 3-value sequence against a 2-element series errors. -/
theorem setAttribute_length_mismatch_error_witness :
    ElementSeries.setAttribute (fun (e : ℚ) v => e + v) [1, 2] (.seq [1, 2, 3])
      = .error "Length of input values does not match length of ElementSeries." :=
  setAttribute_length_mismatch_error _ _ _ (by norm_num)

/-- Helper: zipping a list against `replicate` of its own length with a
binary function is the same as mapping the partially applied function. -/
theorem zipWith_replicate_length {E : Type} (setter : E → ℚ → E) (v : ℚ) :
    ∀ es : List E,
      List.zipWith setter es (List.replicate es.length v)
        = es.map (fun e => setter e v) := by
  intro es
  induction es with
  | nil => rfl
  | cons e es ih => simp [List.replicate_succ, ih]

/-- C6: broadcasting law — a batched setter applied to a single scalar `v`
produces exactly the same result as applying it to the sequence
`replicate (len series) v`. -/
theorem setAttribute_scalar_broadcast {E : Type} (setter : E → ℚ → E)
    (elements : List E) (v : ℚ) :
    ElementSeries.setAttribute setter elements (.scalar v)
      = ElementSeries.setAttribute setter elements
          (.seq (List.replicate elements.length v)) := by
  simp [ElementSeries.setAttribute, zipWith_replicate_length]

/-- Helper: every single `BarElement` method call leaves the reference
width, reference height and centroid untouched. -/
theorem barElement_applyOp_refs (b : BarElement) (op : BarOp) :
    (b.applyOp op)._ref_w = b._ref_w ∧ (b.applyOp op)._ref_h = b._ref_h
      ∧ (b.applyOp op)._centroid = b._centroid := by
  cases op with
  | setData v =>
      show (b.set_data v)._ref_w = b._ref_w ∧ (b.set_data v)._ref_h = b._ref_h
        ∧ (b.set_data v)._centroid = b._centroid
      unfold BarElement.set_data
      by_cases hb : b.horizontal = true
      · rw [if_pos hb]; exact ⟨rfl, rfl, rfl⟩
      · rw [if_neg hb]; exact ⟨rfl, rfl, rfl⟩
  | setScale s => exact ⟨rfl, rfl, rfl⟩
  | setAlpha a => exact ⟨rfl, rfl, rfl⟩

/-- Helper: any finite sequence of `BarElement` method calls leaves the
reference geometry untouched. -/
theorem barElement_foldl_refs (ops : List BarOp) :
    ∀ b : BarElement,
      (ops.foldl BarElement.applyOp b)._ref_w = b._ref_w
        ∧ (ops.foldl BarElement.applyOp b)._ref_h = b._ref_h
        ∧ (ops.foldl BarElement.applyOp b)._centroid = b._centroid := by
  induction ops with
  | nil => exact fun b => ⟨rfl, rfl, rfl⟩
  | cons op ops ih =>
      intro b
      obtain ⟨h1, h2, h3⟩ := barElement_applyOp_refs b op
      obtain ⟨g1, g2, g3⟩ := ih (b.applyOp op)
      exact ⟨g1.trans h1, g2.trans h2, g3.trans h3⟩

/-- C8: for a `BarElement` constructed from a bar, (i) the reference width,
reference height and centroid captured at construction survive any finite
sequence of `set_data` / `set_scale` / `set_alpha` calls unchanged, and
(ii) after any sequence of `set_scale` calls whose last call is
`set_scale(s)`, the artist's width is `s` times the reference width, its
height `s` times the reference height, and its lower-left corner is the
centroid minus `s/2` times the reference dimensions — scaling never
compounds. -/
theorem barElement_reference_fixed_and_scale_noncompounding
    (bar : Rectangle) (ho : Bool) (ops : List BarOp) (ss : List ℚ) (s : ℚ) :
    ((ops.foldl BarElement.applyOp (BarElement.make bar ho))._ref_w = bar.w
      ∧ (ops.foldl BarElement.applyOp (BarElement.make bar ho))._ref_h = bar.h
      ∧ (ops.foldl BarElement.applyOp (BarElement.make bar ho))._centroid
          = (bar.x + (1/2) * bar.w, bar.y + (1/2) * bar.h))
    ∧ (((ss.map BarOp.setScale ++ [BarOp.setScale s]).foldl BarElement.applyOp
          (BarElement.make bar ho)).artist.w = s * bar.w
      ∧ ((ss.map BarOp.setScale ++ [BarOp.setScale s]).foldl BarElement.applyOp
          (BarElement.make bar ho)).artist.h = s * bar.h
      ∧ ((ss.map BarOp.setScale ++ [BarOp.setScale s]).foldl BarElement.applyOp
          (BarElement.make bar ho)).artist.x
          = (bar.x + (1/2) * bar.w) - s * bar.w / 2
      ∧ ((ss.map BarOp.setScale ++ [BarOp.setScale s]).foldl BarElement.applyOp
          (BarElement.make bar ho)).artist.y
          = (bar.y + (1/2) * bar.h) - s * bar.h / 2) := by
  constructor
  · obtain ⟨h1, h2, h3⟩ := barElement_foldl_refs ops (BarElement.make bar ho)
    exact ⟨h1, h2, h3⟩
  · rw [List.foldl_append]
    obtain ⟨h1, h2, h3⟩ :=
      barElement_foldl_refs (ss.map BarOp.setScale) (BarElement.make bar ho)
    set b1 := (ss.map BarOp.setScale).foldl BarElement.applyOp
      (BarElement.make bar ho) with hb1
    have hw : b1._ref_w = bar.w := h1
    have hh : b1._ref_h = bar.h := h2
    have hc : b1._centroid = (bar.x + (1/2) * bar.w, bar.y + (1/2) * bar.h) := h3
    simp [List.foldl_cons, List.foldl_nil, BarElement.applyOp,
      BarElement.set_scale, hw, hh, hc]

/-- Helper: consuming `n` values from `itertools.count(current, step)`
yields `current, current + step, …` and leaves the iterator at
`current + n * step`. -/
theorem countIter_takeN (n : Nat) :
    ∀ c : CountIter,
      c.takeN n
        = ((List.range n).map (fun (i : ℕ) => c.current + (i : ℚ) * c.step),
           ⟨c.current + (n : ℚ) * c.step, c.step⟩) := by
  induction n with
  | zero => intro c; simp [CountIter.takeN]
  | succ n ih =>
      intro c
      have h := ih ⟨c.current + c.step, c.step⟩
      simp only [CountIter.takeN, CountIter.next, h]
      rw [Prod.mk.injEq]
      constructor
      · rw [List.range_succ_eq_map, List.map_cons, List.map_map,
          List.cons_eq_cons]
        constructor
        · norm_num
        · congr 1
          funext i
          show c.current + c.step + (i : ℚ) * c.step
            = c.current + ((i + 1 : ℕ) : ℚ) * c.step
          push_cast
          ring
      · rw [CountIter.mk.injEq]
        exact ⟨by push_cast; ring, rfl⟩

/-- C9 counterexample: after two values (0 and 20) of `Stagger(0, 20)` have
been consumed, a fresh iteration over the same Stagger yields 40 next, not
the base time 0 — the Stagger is not restartable-from-definition. -/
theorem stagger_restart_counterexample :
    (((Stagger.make 0 20).iterTake 2).2.iterTake 1).1 = [40]
      ∧ (((Stagger.make 0 20).iterTake 2).2.iterTake 1).1 ≠ [0] := by
  have h : (((Stagger.make 0 20).iterTake 2).2.iterTake 1).1 = [40] := by
    simp [Stagger.make, Stagger.iterTake, CountIter.takeN, CountIter.next]
    norm_num
  refine ⟨h, ?_⟩
  rw [h]
  intro hc
  rw [List.cons_eq_cons] at hc
  exact absurd hc.1 (by norm_num)

/-- C9 amended: `Stagger(start, interval)` yields
`start, start + interval, start + 2*interval, …` cumulatively across all
consumption; but iteration state is shared with the object, so an iteration
begun after `m` values have been consumed resumes at
`start + m*interval` instead of restarting at `start`. -/
theorem stagger_sequence_amended (start interval : ℚ) (m n : Nat) :
    ((Stagger.make start interval).iterTake n).1
        = (List.range n).map (fun (i : ℕ) => start + (i : ℚ) * interval)
    ∧ ((((Stagger.make start interval).iterTake m).2).iterTake n).1
        = (List.range n).map
            (fun (i : ℕ) => start + ((m : ℚ) + (i : ℚ)) * interval) := by
  have h1 := countIter_takeN n ⟨start, interval⟩
  have h2 := countIter_takeN m ⟨start, interval⟩
  have h3 := countIter_takeN n ⟨start + (m : ℚ) * interval, interval⟩
  constructor
  · simp [Stagger.make, Stagger.iterTake, h1]
  · simp only [Stagger.make, Stagger.iterTake, h2, h3]
    congr 1
    funext i
    ring

/-- Helper: mapping `getD` over the index range of a list rebuilds the
list. -/
theorem map_range_getD {β : Type} (d : β) :
    ∀ l : List β, (List.range l.length).map (fun i => l.getD i d) = l := by
  intro l
  induction l with
  | nil => rfl
  | cons x xs ih =>
      rw [List.length_cons, List.range_succ_eq_map, List.map_cons, List.map_map]
      congr 1

/-- Helper: `map_range_getD` stated against an abstract length. -/
theorem map_range_getD_of_length {β : Type} (d : β) (l : List β) (n : ℕ)
    (h : l.length = n) :
    (List.range n).map (fun i => l.getD i d) = l := by
  subst h
  exact map_range_getD d l

/-- Helper: a one-element list is the singleton of its default head. -/
theorem replicate_one_headD {β : Type} (l : List β) (d : β)
    (h : l.length = 1) : List.replicate 1 (l.headD d) = l := by
  cases l with
  | nil => simp at h
  | cons x xs =>
      cases xs with
      | nil => rfl
      | cons y ys => simp at h

/-- Helper: deduplicating a nonempty constant list gives the singleton. -/
theorem dedup_replicate_succ {β : Type} [DecidableEq β] (a : β) (n : ℕ) :
    (List.replicate (n + 1) a).dedup = [a] := by
  induction n with
  | zero => simp
  | succ n ih =>
      rw [List.replicate_succ,
        List.dedup_cons_of_mem (by simp [List.mem_replicate]), ih]

/-- C3 counterexample: a scatter artifact with two points but a single
shared size `[20]` does not round-trip bit-for-bit: the flush writes the
broadcast per-point sizes array `[20, 20]` (and a broadcast per-point
colors array) back to the artifact. -/
theorem scatter_roundtrip_counterexample :
    roundTripScatter
        { offsets := [(1, 3), (2, 2)], sizes := [20], alpha := none,
          facecolors := [⟨0, 0, 1, 1⟩] } false
      ≠ { offsets := [(1, 3), (2, 2)], sizes := [20], alpha := none,
          facecolors := [⟨0, 0, 1, 1⟩] } := by
  intro h
  have hs := congrArg PathCollection.sizes h
  have hc : (roundTripScatter
      { offsets := [(1, 3), (2, 2)], sizes := [20], alpha := none,
        facecolors := [⟨0, 0, 1, 1⟩] } false).sizes = [20, 20] := by rfl
  rw [hc] at hs
  have hlen := congrArg List.length hs
  simp at hlen

/-- C10: constructing a `SeriesAnimation` raises `AttributeError` for every
artifact argument: the constructor instantiates the base `ElementSeries`
directly, which holds zero elements and has no `artists` attribute, so the
access `self.elements.artists` fails before any per-element `Animation` is
created. -/
theorem seriesAnimation_init_attribute_error {α ε A : Type} (artists : α)
    (start_time duration : AttrValue) (easer : EaserArg)
    (animation_class : ε → ℚ → ℚ → (ℚ → ℚ) → A) (horizontal : Bool) :
    (ElementSeries.initBase (ε := ε) artists horizontal)._elements = ([] : List ε)
    ∧ SeriesAnimation.initObj artists start_time duration easer
        animation_class horizontal
      = .error "AttributeError: ElementSeries object has no attribute artists" :=
  ⟨rfl, rfl⟩

/-- C2: `SeriesAnimation.tick(t)` advances every per-element animation and
returns the cached artifact handles, but performs no batched flush: the
owned series object (and with it the artifact the series exclusively owns)
is left entirely untouched, because the body never calls
`self.elements.update()`. -/
theorem seriesAnimation_tick_no_flush {α ε A : Type}
    (tickAnim : A → ℚ → A) (s : SeriesAnimationObj α ε A) (t : ℚ) :
    (SeriesAnimation.tick tickAnim s t).1.animations
        = s.animations.map (fun a => tickAnim a t)
    ∧ (SeriesAnimation.tick tickAnim s t).1.elements = s.elements
    ∧ (SeriesAnimation.tick tickAnim s t).2 = s._artists :=
  ⟨rfl, rfl, rfl⟩

/-- Helper: the scatter round trip is exact when the artifact already
stores one size per point, a per-point alpha array, and face colors whose
alpha channel equals the clamped per-point alpha. -/
theorem scatter_roundtrip_exact (offs : List (ℚ × ℚ)) (szs : List ℚ)
    (as0 : List ℚ) (fcs : List RGBA) (ho : Bool)
    (hs : szs.length = offs.length)
    (ha0 : as0.length = offs.length)
    (hfc : fcs.length = offs.length)
    (hmatch : ∀ i, i < offs.length →
        to_rgba (fcs.getD i ⟨0,0,0,0⟩) (max 0 (min 1 (as0.getD i 0)))
          = fcs.getD i ⟨0,0,0,0⟩) :
    roundTripScatter ⟨offs, szs, some as0, fcs⟩ ho
      = ⟨offs, szs, some as0, fcs⟩ := by
  simp only [roundTripScatter, ScatterSeries.update, ScatterSeries.init,
    DummyElement.init, DummyElement.set_full_data, DummyElement.set_scale,
    DummyElement.set_alpha]
  have hsz2 : (if szs.length = 1 then List.replicate offs.length (szs.headD 0)
      else szs) = szs := by
    by_cases h1 : szs.length = 1
    · rw [if_pos h1]
      have h2 : offs.length = 1 := by rw [← hs, h1]
      rw [h2]
      exact replicate_one_headD szs 0 h1
    · exact if_neg h1
  rw [hsz2]
  rw [PathCollection.mk.injEq]
  refine ⟨?_, ?_, rfl, ?_⟩
  · rw [List.map_map]
    have hfun : ((fun (el : DummyElement) => el._data.getD (0, 0)) ∘ (fun i =>
        ({ horizontal := ho, _alpha := some (as0.getD i 0),
           _data := some (offs.getD i (0, 0)), _scale := some (szs.getD i 0),
           _ref_sizes := none } : DummyElement)))
        = fun i => offs.getD i (0, 0) := by
      funext i; rfl
    rw [hfun]
    exact map_range_getD (0, 0) offs
  · rw [List.map_map]
    have hfun : ((fun (el : DummyElement) => el._scale.getD 0) ∘ (fun i =>
        ({ horizontal := ho, _alpha := some (as0.getD i 0),
           _data := some (offs.getD i (0, 0)), _scale := some (szs.getD i 0),
           _ref_sizes := none } : DummyElement)))
        = fun i => szs.getD i 0 := by
      funext i; rfl
    rw [hfun]
    exact map_range_getD_of_length 0 szs offs.length hs
  · by_cases h1 : fcs.length = 1
    · rw [if_pos h1]
      have h2 : offs.length = 1 := by rw [← hfc, h1]
      cases fcs with
      | nil => simp at h1
      | cons f0 rest =>
          cases rest with
          | nil =>
              have hm := hmatch 0 (by rw [h2]; norm_num)
              have hr1 : List.range 1 = [0] := rfl
              rw [h2, hr1]
              simpa [Function.comp] using hm
          | cons g rest2 => simp at h1
    · rw [if_neg h1]
      apply List.ext_getElem
      · simp [List.length_zip, List.length_map, List.length_range, hfc]
      · intro i hi1 hi2
        simp only [List.getElem_map, List.getElem_zip, List.getElem_range,
          Option.getD_some]
        have hm := hmatch i (hfc ▸ hi2)
        have hgd : fcs.getD i ⟨0,0,0,0⟩ = fcs[i] := by
          rw [List.getD_eq_getElem?_getD, List.getElem?_eq_getElem hi2]
          rfl
        rw [hgd] at hm
        exact hm

/-- Helper: the scatter round trip is also exact when the artifact has no
artist alpha at all (`alpha = None`), provided the per-point sizes are
stored and each face color's alpha channel equals the clamped default
element alpha 1 — the ordinary configuration of a scatter built with
per-point sizes and colors. -/
theorem scatter_roundtrip_exact_none (offs : List (ℚ × ℚ)) (szs : List ℚ)
    (fcs : List RGBA) (ho : Bool)
    (hs : szs.length = offs.length)
    (hfc : fcs.length = offs.length)
    (hmatch : ∀ i, i < offs.length →
        to_rgba (fcs.getD i ⟨0,0,0,0⟩)
            (max 0 (min 1 ((List.replicate offs.length (1 : ℚ)).getD i 0)))
          = fcs.getD i ⟨0,0,0,0⟩) :
    roundTripScatter ⟨offs, szs, none, fcs⟩ ho
      = ⟨offs, szs, none, fcs⟩ := by
  simp only [roundTripScatter, ScatterSeries.update, ScatterSeries.init,
    DummyElement.init, DummyElement.set_full_data, DummyElement.set_scale,
    DummyElement.set_alpha]
  have hsz2 : (if szs.length = 1 then List.replicate offs.length (szs.headD 0)
      else szs) = szs := by
    by_cases h1 : szs.length = 1
    · rw [if_pos h1]
      have h2 : offs.length = 1 := by rw [← hs, h1]
      rw [h2]
      exact replicate_one_headD szs 0 h1
    · exact if_neg h1
  rw [hsz2]
  rw [PathCollection.mk.injEq]
  refine ⟨?_, ?_, rfl, ?_⟩
  · rw [List.map_map]
    have hfun : ((fun (el : DummyElement) => el._data.getD (0, 0)) ∘ (fun i =>
        ({ horizontal := ho,
           _alpha := some ((List.replicate offs.length (1 : ℚ)).getD i 0),
           _data := some (offs.getD i (0, 0)), _scale := some (szs.getD i 0),
           _ref_sizes := none } : DummyElement)))
        = fun i => offs.getD i (0, 0) := by
      funext i; rfl
    rw [hfun]
    exact map_range_getD (0, 0) offs
  · rw [List.map_map]
    have hfun : ((fun (el : DummyElement) => el._scale.getD 0) ∘ (fun i =>
        ({ horizontal := ho,
           _alpha := some ((List.replicate offs.length (1 : ℚ)).getD i 0),
           _data := some (offs.getD i (0, 0)), _scale := some (szs.getD i 0),
           _ref_sizes := none } : DummyElement)))
        = fun i => szs.getD i 0 := by
      funext i; rfl
    rw [hfun]
    exact map_range_getD_of_length 0 szs offs.length hs
  · by_cases h1 : fcs.length = 1
    · rw [if_pos h1]
      have h2 : offs.length = 1 := by rw [← hfc, h1]
      cases fcs with
      | nil => simp at h1
      | cons f0 rest =>
          cases rest with
          | nil =>
              have hm := hmatch 0 (by rw [h2]; norm_num)
              have hr1 : List.range 1 = [0] := rfl
              rw [h2, hr1]
              rw [h2] at hm
              simpa [Function.comp] using hm
          | cons g rest2 => simp at h1
    · rw [if_neg h1]
      apply List.ext_getElem
      · simp [List.length_zip, List.length_map, List.length_range, hfc]
      · intro i hi1 hi2
        simp only [List.getElem_map, List.getElem_zip, List.getElem_range,
          Option.getD_some]
        have hm := hmatch i (hfc ▸ hi2)
        have hgd : fcs.getD i ⟨0,0,0,0⟩ = fcs[i] := by
          rw [List.getD_eq_getElem?_getD, List.getElem?_eq_getElem hi2]
          rfl
        rw [hgd] at hm
        exact hm

/-- Helper: the polyline round trip is exact when the artist alpha is set
and the coordinate arrays are nonempty and of equal length. -/
theorem line_roundtrip_exact (xd yd : List ℚ) (a0 ms lw : ℚ) (ho : Bool)
    (hxy : xd.length = yd.length) (hne : xd ≠ []) :
    roundTripLine ⟨xd, yd, some a0, ms, lw⟩ ho = ⟨xd, yd, some a0, ms, lw⟩ := by
  cases xd with
  | nil => exact absurd rfl hne
  | cons x xs =>
      cases yd with
      | nil => simp at hxy
      | cons y ys =>
          simp only [roundTripLine, Line2DSeries.update, Line2DSeries.init,
            DummyElement.init, DummyElement.set_full_data,
            DummyElement.set_alpha, DummyElement.set_scale,
            DummyElement.set_reference_sizes, List.zip_cons_cons,
            List.map_cons, List.map_map]
          have hxy2 : xs.length = ys.length := by simpa using hxy
          rw [Line2D.mk.injEq]
          have hf1 : (Prod.fst ∘ (fun (el : DummyElement) => el._data.getD (0, 0))
              ∘ (fun (d : ℚ × ℚ) =>
                ({ horizontal := ho, _alpha := some a0, _data := some d,
                   _scale := some 1, _ref_sizes := some (ms, lw) } : DummyElement)))
              = Prod.fst := by
            funext d; rfl
          have hf2 : (Prod.snd ∘ (fun (el : DummyElement) => el._data.getD (0, 0))
              ∘ (fun (d : ℚ × ℚ) =>
                ({ horizontal := ho, _alpha := some a0, _data := some d,
                   _scale := some 1, _ref_sizes := some (ms, lw) } : DummyElement)))
              = Prod.snd := by
            funext d; rfl
          have hf3 : ((fun (el : DummyElement) => el._alpha.getD 0)
              ∘ (fun (d : ℚ × ℚ) =>
                ({ horizontal := ho, _alpha := some a0, _data := some d,
                   _scale := some 1, _ref_sizes := some (ms, lw) } : DummyElement)))
              = fun d => a0 := by
            funext d; rfl
          have hf4 : ((fun (el : DummyElement) => el._scale.getD 0)
              ∘ (fun (d : ℚ × ℚ) =>
                ({ horizontal := ho, _alpha := some a0, _data := some d,
                   _scale := some 1, _ref_sizes := some (ms, lw) } : DummyElement)))
              = fun d => (1 : ℚ) := by
            funext d; rfl
          refine ⟨?_, ?_, ?_, ?_, ?_⟩
          · rw [hf1, List.cons_eq_cons]
            exact ⟨rfl, List.map_fst_zip xs ys (le_of_eq hxy2)⟩
          · rw [hf2, List.cons_eq_cons]
            exact ⟨rfl, List.map_snd_zip xs ys (ge_of_eq hxy2)⟩
          · rw [hf3, List.map_const']
            simp only [Option.getD_some]
            rw [← List.replicate_succ, dedup_replicate_succ]
            rfl
          · rw [hf4, List.map_const']
            simp only [Option.getD_some, List.headD_cons]
            rw [← List.replicate_succ, dedup_replicate_succ]
            simp [mul_one]
          · rw [hf4, List.map_const']
            simp only [Option.getD_some, List.headD_cons]
            rw [← List.replicate_succ, dedup_replicate_succ]
            simp [mul_one]

/-- C3 amended: the no-mutation round trip is exact for bar-group
artifacts always; for scatter artifacts it is exact whenever the artifact
stores one size per point and each stored face color's alpha channel
already equals the clamped effective per-point alpha, where the effective
alphas are the artifact's per-point alpha array if one is set and 1 for
every point when the artist alpha is `None` (so the common
`alpha=None` / unit-alpha-colors configuration round-trips exactly);
otherwise — as the counterexample shows — the flush writes broadcast
per-point sizes/colors arrays and overwritten alpha channels back.  For
polyline artifacts it is exact when the artist alpha is not `None` and the
coordinate arrays are nonempty and of equal length (otherwise a `None`
alpha is materialised as 1). -/
theorem elementSeries_roundtrip_amended
    (pc : PathCollection) (l : Line2D) (a0 : ℚ)
    (bars : List Rectangle) (ho : Bool)
    (hs : pc.sizes.length = pc.offsets.length)
    (ha0 : (pc.alpha.getD (List.replicate pc.offsets.length 1)).length
        = pc.offsets.length)
    (hfc : pc.facecolors.length = pc.offsets.length)
    (hmatch : ∀ i, i < pc.offsets.length →
        to_rgba (pc.facecolors.getD i ⟨0, 0, 0, 0⟩)
            (max 0 (min 1
              ((pc.alpha.getD (List.replicate pc.offsets.length 1)).getD i 0)))
          = pc.facecolors.getD i ⟨0, 0, 0, 0⟩)
    (hl : l.alpha = some a0)
    (hxy : l.xdata.length = l.ydata.length)
    (hne : l.xdata ≠ []) :
    roundTripScatter pc ho = pc ∧ roundTripLine l ho = l
      ∧ roundTripBar bars ho = bars := by
  obtain ⟨offs, szs, al, fcs⟩ := pc
  obtain ⟨xd, yd, lal, ms, lw⟩ := l
  have hl2 : lal = some a0 := hl
  subst hl2
  refine ⟨?_, line_roundtrip_exact xd yd a0 ms lw ho hxy hne, rfl⟩
  cases al with
  | none => exact scatter_roundtrip_exact_none offs szs fcs ho hs hfc hmatch
  | some as0 =>
      exact scatter_roundtrip_exact offs szs as0 fcs ho hs ha0 hfc hmatch

/-- Witness for C3 (amended): a concrete two-point scatter with per-point
sizes, no artist alpha and unit-alpha per-point colors, a concrete
two-vertex line with a set alpha, and a one-bar container all round-trip
exactly. -/
theorem elementSeries_roundtrip_amended_witness :
    roundTripScatter
        ⟨[(1, 3), (2, 2)], [5, 6], none,
         [⟨1, 0, 0, 1⟩, ⟨0, 1, 0, 1⟩]⟩ false
      = ⟨[(1, 3), (2, 2)], [5, 6], none,
         [⟨1, 0, 0, 1⟩, ⟨0, 1, 0, 1⟩]⟩
    ∧ roundTripLine ⟨[1, 2], [3, 4], some 1, 6, 2⟩ false
      = ⟨[1, 2], [3, 4], some 1, 6, 2⟩
    ∧ roundTripBar [⟨0, 0, 1, 3, none⟩] false = [⟨0, 0, 1, 3, none⟩] :=
  elementSeries_roundtrip_amended _ _ 1 _ false
    rfl rfl rfl (by decide) rfl rfl (by simp)

end PresiPlot
